import Mathlib

/-!
Verification of the recipe rescan / nutrition pipeline (recettes_rescan.py).

Shallow embedding conventions:
- Python `str` is Lean `String`; helper functions model the exact CPython
  behaviour of the string methods used by the code (strip / splitlines /
  split / replace), restricted to the character repertoire the program
  manipulates ('\n' line ends, ASCII whitespace).
- Python `float` is modelled as `ℚ`; the numeric values handled by the
  pipeline (decimal literals, small sums and quotients) are exact in ℚ.
- A Python function that can raise is modelled with `Option` (`none` =
  an exception escapes the function).
- `unicodedata.normalize('NFD', s)` followed by dropping combining marks
  (the `deaccent` helper) is modelled by a character table covering the
  precomposed Latin characters appearing in the program's data and inputs;
  characters outside the table are kept unchanged, as `deaccent` keeps any
  character that carries no combining mark.
-/

/-- Python `str.strip` whitespace test, ASCII repertoire. -/
def pyIsSpace (c : Char) : Bool :=
  c = ' ' || c = '\t' || c = '\n' || c = '\r' || c = '\x0b' || c = '\x0c'

/-- Strip leading and trailing whitespace from a character list. -/
def stripList (l : List Char) : List Char :=
  ((l.dropWhile pyIsSpace).reverse.dropWhile pyIsSpace).reverse

/-- Python `str.strip()`. -/
def pyStrip (s : String) : String :=
  String.mk (stripList s.toList)

/-- Split a character list on a separator character; always returns at
least one (possibly empty) segment, like Python `str.split(sep)`. -/
def splitOnCharAux (sep : Char) : List Char → List Char → List (List Char)
  | acc, [] => [acc.reverse]
  | acc, c :: rest =>
    if c = sep then acc.reverse :: splitOnCharAux sep [] rest
    else splitOnCharAux sep (c :: acc) rest

def splitOnChar (sep : Char) (l : List Char) : List (List Char) :=
  splitOnCharAux sep [] l

def splitOnCharS (sep : Char) (s : String) : List String :=
  (splitOnChar sep s.toList).map String.mk

/-- Join segments with a separator (Python `sep.join(parts)`). -/
def joinWith (sep : List Char) : List (List Char) → List Char
  | [] => []
  | [x] => x
  | x :: y :: xs => x ++ sep ++ joinWith sep (y :: xs)

/-- String equality via the underlying character lists. -/
def strEqB (a b : String) : Bool := a.toList == b.toList

def memStr (x : String) (l : List String) : Bool := l.any (strEqB x)

/-- Python `str.splitlines()` for '\n'-separated text: no trailing empty
segment, and the empty string yields no lines. -/
def pySplitlines (s : String) : List String :=
  match s.toList with
  | [] => []
  | l =>
    let parts := splitOnChar '\n' l
    let parts := if l.getLast? = some '\n' then parts.dropLast else parts
    parts.map String.mk

/-- Python `"\n".join(...)`. -/
def joinNL (ls : List String) : String :=
  String.mk (joinWith ['\n'] (ls.map String.toList))

/-- Python `str.replace(pat, rep)`, leftmost non-overlapping occurrences,
implemented with a fuel argument (initialised to the string length) so the
definition stays structurally recursive. -/
def replaceFuel (pat rep : List Char) : Nat → List Char → List Char
  | _, [] => []
  | 0, l => l
  | fuel + 1, c :: rest =>
    if !pat.isEmpty && pat.isPrefixOf (c :: rest) then
      rep ++ replaceFuel pat rep fuel ((c :: rest).drop pat.length)
    else c :: replaceFuel pat rep fuel rest

def pyReplace (s pat rep : String) : String :=
  String.mk (replaceFuel pat.toList rep.toList s.toList.length s.toList)

/-- Replace every maximal run of characters satisfying `p` by a single
space (the effect of `re.sub(r"[^...]+", " ", s)`). -/
def collapseRunsAux (p : Char → Bool) : Bool → List Char → List Char
  | _, [] => []
  | inRun, c :: rest =>
    if p c then
      if inRun then collapseRunsAux p true rest
      else ' ' :: collapseRunsAux p true rest
    else c :: collapseRunsAux p false rest

def collapseRuns (p : Char → Bool) (l : List Char) : List Char :=
  collapseRunsAux p false l

/-- Substring test (`needle in hay` on Python strings). -/
def containsSub (needle : List Char) : List Char → Bool
  | [] => needle.isEmpty
  | l@(_ :: rest) => needle.isPrefixOf l || containsSub needle rest

def strContains (needle hay : String) : Bool :=
  containsSub needle.toList hay.toList

/-- Accent stripping table: NFD + drop combining marks, for the
precomposed Latin characters used by the program (see header). -/
def deaccentChar (c : Char) : Char :=
  match c with
  | 'à' => 'a' | 'â' => 'a' | 'ä' => 'a'
  | 'é' => 'e' | 'è' => 'e' | 'ê' => 'e' | 'ë' => 'e'
  | 'ì' => 'i' | 'î' => 'i' | 'ï' => 'i'
  | 'ô' => 'o' | 'ö' => 'o'
  | 'ù' => 'u' | 'û' => 'u' | 'ü' => 'u'
  | 'ç' => 'c'
  | 'À' => 'A' | 'Â' => 'A' | 'Ä' => 'A'
  | 'É' => 'E' | 'È' => 'E' | 'Ê' => 'E' | 'Ë' => 'E'
  | 'Ì' => 'I' | 'Î' => 'I' | 'Ï' => 'I'
  | 'Ô' => 'O' | 'Ö' => 'O'
  | 'Ù' => 'U' | 'Û' => 'U' | 'Ü' => 'U'
  | 'Ç' => 'C'
  | other => other

/-- `deaccent` from the source: strip accents. -/
def deaccent (s : String) : String :=
  String.mk (s.toList.map deaccentChar)

/-- Python `str.lower()` for the repertoire in use. -/
def lowerChar (c : Char) : Char :=
  if 'A' ≤ c && c ≤ 'Z' then Char.ofNat (c.toNat + 32)
  else
    match c with
    | 'À' => 'à' | 'Â' => 'â' | 'Ä' => 'ä'
    | 'É' => 'é' | 'È' => 'è' | 'Ê' => 'ê' | 'Ë' => 'ë'
    | 'Ì' => 'ì' | 'Î' => 'î' | 'Ï' => 'ï'
    | 'Ô' => 'ô' | 'Ö' => 'ö'
    | 'Ù' => 'ù' | 'Û' => 'û' | 'Ü' => 'ü'
    | 'Ç' => 'ç'
    | '\u00C6' => '\u00E6'
    | '\u03A9' => '\u03C9'
    | other => other

def strLower (s : String) : String :=
  String.mk (s.toList.map lowerChar)

/-- `[a-z0-9]` test used by the title / line normalizers. -/
def isLowerAlnum (c : Char) : Bool :=
  ('a' ≤ c && c ≤ 'z') || ('0' ≤ c && c ≤ '9')

/-- `normalize_title` from the source: lowercase, deaccent, collapse
non-alphanumeric runs to single spaces, strip, collapse whitespace. -/
def normalize_title (s : String) : String :=
  let t := strLower (deaccent s)
  let u := pyStrip (String.mk (collapseRuns (fun c => !(isLowerAlnum c)) t.toList))
  String.mk (collapseRuns pyIsSpace u.toList)

/-- `_TITLE_STOP_WORDS` from the source. -/
def titleStopWords : List String :=
  ["de", "du", "des", "la", "le", "les", "au", "aux", "a", "et", "en",
   "d", "l", "un", "une", "aux", "avec", "sans"]

/-- Code-point lexicographic `≤` on strings (Python string comparison). -/
def lexLe : List Char → List Char → Bool
  | [], _ => true
  | _ :: _, [] => false
  | a :: as, b :: bs =>
    if a.val < b.val then true
    else if b.val < a.val then false
    else lexLe as bs

def strLe (a b : String) : Bool := lexLe a.toList b.toList

/-- Stable insertion sort modelling Python `list.sort()` on strings. -/
def insertSorted (x : String) : List String → List String
  | [] => [x]
  | y :: ys => if strLe x y then x :: y :: ys else y :: insertSorted x ys

def sortStrings : List String → List String
  | [] => []
  | x :: xs => insertSorted x (sortStrings xs)

/-- `title_key` from the source: normalized title minus stop words,
tokens sorted, joined with single spaces. -/
def title_key (s : String) : String :=
  let base := normalize_title s
  if strEqB base "" then ""
  else
    let tokens := (splitOnCharS ' ' base).filter
      (fun t => !(strEqB t "") && !(memStr t titleStopWords))
    String.mk (joinWith [' '] ((sortStrings tokens).map String.toList))


/-!
## Food matcher (`match_food`)

`re.search(rf"\b{re.escape(t)}\b", base)` on the space-padded normalized
line: the token must occur in `base` with a regex word boundary on each
side. A word boundary sits between a word character (`[A-Za-z0-9_]` for
the repertoire at hand) and a non-word character or the string edge.
-/

def isWordChar (c : Char) : Bool :=
  ('a' ≤ c && c ≤ 'z') || ('A' ≤ c && c ≤ 'Z') || ('0' ≤ c && c ≤ '9') || c = '_'

def wordOpt : Option Char → Bool
  | some c => isWordChar c
  | none => false

/-- `\b` between an optional left character and an optional right one. -/
def isBoundary (l r : Option Char) : Bool :=
  wordOpt l != wordOpt r

/-- Does the nonempty token `t` occur in `l` starting here, with word
boundaries on both sides?  `prev` is the character before this position. -/
def wordMatchAt (t : List Char) (prev : Option Char) (l : List Char) : Bool :=
  t.isPrefixOf l
  && isBoundary prev l.head?
  && isBoundary ((l.take t.length).getLast?) ((l.drop t.length).head?)

def searchWordAux (t : List Char) (prev : Option Char) : List Char → Bool
  | [] => false
  | l@(c :: rest) => wordMatchAt t prev l || searchWordAux t (some c) rest

/-- `re.search(rf"\b{re.escape(t)}\b", base)` for a nonempty literal token. -/
def searchWord (t : List Char) (base : List Char) : Bool :=
  searchWordAux t none base

/-- One row of the nutrition table.  The numeric fields hold the values
the code obtains through `float(...)`; `grams_per_unit = none` models the
empty string (falsy in every `or` the code applies to it). -/
structure FoodRow where
  food : String
  aliases : String
  unit : String
  grams_per_unit : Option ℚ
  kcal_per_100g : ℚ
  protein_g_per_100g : ℚ
  fat_g_per_100g : ℚ
  carb_g_per_100g : ℚ
deriving DecidableEq, Repr

/-- Builtin table rows from `load_nutrition_table`. -/
def pouletRow : FoodRow :=
  { food := "poulet", aliases := "blanc de poulet|poulet", unit := "g",
    grams_per_unit := none, kcal_per_100g := 165, protein_g_per_100g := 31,
    fat_g_per_100g := 3.6, carb_g_per_100g := 0 }

def pommeDeTerreRow : FoodRow :=
  { food := "pomme de terre", aliases := "pdt|pommes de terre|patate", unit := "g",
    grams_per_unit := none, kcal_per_100g := 77, protein_g_per_100g := 2,
    fat_g_per_100g := 0.1, carb_g_per_100g := 17 }

def rizRow : FoodRow :=
  { food := "riz basmati", aliases := "riz", unit := "g",
    grams_per_unit := none, kcal_per_100g := 360, protein_g_per_100g := 7,
    fat_g_per_100g := 0.6, carb_g_per_100g := 79 }

def patesRow : FoodRow :=
  { food := "p\u221A\u00A2tes", aliases := "pates|spaghetti|tagliatelles", unit := "g",
    grams_per_unit := none, kcal_per_100g := 350, protein_g_per_100g := 12,
    fat_g_per_100g := 1.5, carb_g_per_100g := 73 }

def carotteRow : FoodRow :=
  { food := "carotte", aliases := "carottes", unit := "g",
    grams_per_unit := none, kcal_per_100g := 41, protein_g_per_100g := 0.9,
    fat_g_per_100g := 0.2, carb_g_per_100g := 10 }

def oignonRow : FoodRow :=
  { food := "oignon", aliases := "oignons", unit := "unit",
    grams_per_unit := some 110, kcal_per_100g := 40, protein_g_per_100g := 1.1,
    fat_g_per_100g := 0.1, carb_g_per_100g := 9 }

def huileRow : FoodRow :=
  { food := "huile d\u201A\u00C4\u00F4olive", aliases := "huile olive|huile", unit := "ml",
    grams_per_unit := none, kcal_per_100g := 884, protein_g_per_100g := 0,
    fat_g_per_100g := 100, carb_g_per_100g := 0 }

/-- The builtin table from `load_nutrition_table` (used whenever no
external `nutrition_table.csv` is present). -/
def NUTRI : List FoodRow :=
  [pouletRow, pommeDeTerreRow, rizRow, patesRow, carotteRow, oignonRow, huileRow]

/-- The normalized, space-padded search text `match_food` builds from a
line: `" " + re.sub(r"[^a-z0-9]+", " ", deaccent(line.lower())) + " "`. -/
def matchBase (line : String) : List Char :=
  ' ' :: collapseRuns (fun c => !(isLowerAlnum c)) (strLower line |> deaccent).toList ++ [' ']

/-- Candidate name list of a row: canonical name plus aliases (split on
`|` when the alias field is non-empty), all accent-stripped and lowered. -/
def rowTokens (row : FoodRow) : List String :=
  deaccent (strLower row.food) ::
    (if strEqB row.aliases "" then []
     else (splitOnCharS '|' row.aliases).map (fun a => deaccent (strLower a)))

/-- Does a row's name list hit the normalized line (inner loop of
`match_food`)? Empty tokens are skipped (`if t and re.search(...)`). -/
def rowMatches (row : FoodRow) (line : String) : Bool :=
  (rowTokens row).any (fun t => !(strEqB t "") && searchWord t.toList (matchBase line))

/-- `match_food`: scan the table in order, return the first row one of
whose names word-matches the line. -/
def match_food : List FoodRow → String → Option FoodRow
  | [], _ => none
  | row :: rest, line =>
    if rowMatches row line then some row else match_food rest line


/-!
## Quantity resolver (`QTY_RE`, `_to_float`, `parse_quantity`)

`QTY_RE = (?P<num>(\d+[.,]?\d*|\d+\s*/\s*\d+|[...]))\s*(?P<unit>...)`
with `re.I`.  The committed source file is double-encoded (its UTF-8 text
went through a MacRoman round trip), so the "fraction" character class
and the accented unit literals are embedded here exactly as the bytes of
the committed file decode: the class is the eight literal characters
U+00AC U+03A9 U+00BA U+00E6 U+201A U+00D6 U+00EC U+00EE, and the unit
alternation contains e.g. `c\u221A\u2020s` where the intended text was
`càs`.  `re.search` is modelled by a scanner that walks the starting
positions left to right and, at each position, enumerates the candidate
`num` matches in exact backtracking preference order (alternatives in
written order, greedy repetition longest first), then `\s*` (longest
first) and the ordered `unit` alternation.  The first combination that
succeeds yields the captured `num` and `unit` texts, exactly as the regex
engine would.
-/

def takeDigits (l : List Char) : List Char × List Char :=
  (l.takeWhile Char.isDigit, l.dropWhile Char.isDigit)

def takeSpaces (l : List Char) : List Char × List Char :=
  (l.takeWhile pyIsSpace, l.dropWhile pyIsSpace)

/-- All splits of `ds ++ rest` whose first component is a prefix of `ds`,
longest prefix first (greedy repetition backtracking order). -/
def splitsDesc (ds rest : List Char) : List (List Char × List Char) :=
  (List.range (ds.length + 1)).map
    (fun k => (ds.take (ds.length - k), ds.drop (ds.length - k) ++ rest))

def firstSome {α β : Type} (f : α → Option β) : List α → Option β
  | [] => none
  | a :: rest =>
    match f a with
    | some b => some b
    | none => firstSome f rest

/-- Candidates for `\d+[.,]?\d*` (matched text, rest), in preference
order. -/
def numCandsAlt1 (s : List Char) : List (List Char × List Char) :=
  let (ds, r) := takeDigits s
  if ds.isEmpty then []
  else
    ((splitsDesc ds r).filter (fun pr => !pr.1.isEmpty)).flatMap (fun pr =>
      let d1 := pr.1
      let r1 := pr.2
      let withSep :=
        match r1 with
        | c :: r2 =>
          if c = '.' || c = ',' then
            let (ds2, r3) := takeDigits r2
            (splitsDesc ds2 r3).map (fun q => (d1 ++ c :: q.1, q.2))
          else []
        | [] => []
      let noSep :=
        let (ds3, r5) := takeDigits r1
        (splitsDesc ds3 r5).map (fun q => (d1 ++ q.1, q.2))
      withSep ++ noSep)

/-- Candidates for `\d+\s*/\s*\d+`, in preference order. -/
def numCandsAlt2 (s : List Char) : List (List Char × List Char) :=
  let (ds, r) := takeDigits s
  if ds.isEmpty then []
  else
    ((splitsDesc ds r).filter (fun pr => !pr.1.isEmpty)).flatMap (fun pr =>
      let d1 := pr.1
      let (sp1, r2) := takeSpaces pr.2
      (splitsDesc sp1 r2).flatMap (fun sq =>
        match sq.2 with
        | '/' :: r3 =>
          let (sp2, r4) := takeSpaces r3
          (splitsDesc sp2 r4).flatMap (fun sq2 =>
            let (d2, r5) := takeDigits sq2.2
            ((splitsDesc d2 r5).filter (fun q => !q.1.isEmpty)).map
              (fun q => (d1 ++ sq.1 ++ '/' :: sq2.1 ++ q.1, q.2)))
        | _ => [])
      )

/-- The distinct literal characters of the num character class in the
committed source (first-occurrence order). -/
def qtyFracChars : List Char :=
  ['\u00AC', '\u03A9', '\u00BA', '\u00E6', '\u201A', '\u00D6', '\u00EC', '\u00EE']

/-- Character-class membership under `re.I`: both the class characters
and the input character are case-folded. -/
def classMatchCI (cls : List Char) (c : Char) : Bool :=
  (cls.map lowerChar).contains (lowerChar c)

/-- Candidates for the one-character class alternative of `num`. -/
def numCandsAlt3 : List Char → List (List Char × List Char)
  | c :: r => if classMatchCI qtyFracChars c then [([c], r)] else []
  | [] => []

def numCands (s : List Char) : List (List Char × List Char) :=
  numCandsAlt1 s ++ numCandsAlt2 s ++ numCandsAlt3 s

/-- Sub-matchers for the unit alternation: a matcher consumes a prefix
and returns (consumed text, rest), or fails. -/
abbrev Scan := List Char → Option (List Char × List Char)

/-- Case-insensitive literal (`re.I`): pattern text written exactly as
in the source, both sides case-folded for the comparison. -/
def litCI : List Char → Scan
  | [], s => some ([], s)
  | _ :: _, [] => none
  | p :: ps, c :: rest =>
    if lowerChar c = lowerChar p then (litCI ps rest).map (fun mr => (c :: mr.1, mr.2))
    else none

def litS (pat : String) : Scan := litCI pat.toList

def sThen (a b : Scan) : Scan := fun s =>
  match a s with
  | some (m1, r1) =>
    match b r1 with
    | some (m2, r2) => some (m1 ++ m2, r2)
    | none => none
  | none => none

def sAlt (ps : List Scan) : Scan := fun s => firstSome (fun p => p s) ps

def sOpt (a : Scan) : Scan := fun s =>
  match a s with
  | some x => some x
  | none => some ([], s)

/-- A one-character regex class under `re.I`. -/
def sClassCI (cls : List Char) : Scan := fun s =>
  match s with
  | c :: r => if classMatchCI cls c then some ([c], r) else none
  | [] => none

def sOptChar (q : Char → Bool) : Scan := fun s =>
  match s with
  | c :: r => if q c then some ([c], r) else some ([], s)
  | [] => some ([], [])

/-- The `unit` alternation of `QTY_RE`, in written order, with the
accent-bearing alternatives embedded exactly as the committed
(double-encoded) source spells them: `c\u221A\u2020s` and
`c\u221A\u2020c` for the intended càs/càc, `(?:ere|\u221A\u00AEre)`
inside cuill..., `caf\u221A\u00A9`, `(?:e|\u221A\u00A9e)` inside
pinc..., `(?:te|\u221A\u00C6te)` inside boi..., and the class
`[e\u221A\u00AE]` inside pi...ces. -/
def unitAlts : List Scan :=
  [ litS "g",
    sThen (litS "gramme") (sOpt (litS "s")),
    litS "ml",
    litS "cl",
    litS "l",
    litS "cs",
    litS "c\u221A\u2020s",
    litS "c\u221A\u2020c",
    litS "cc",
    sThen (litS "cuill")
      (sThen (sAlt [litS "ere", litS "\u221A\u00AEre"])
        (sThen (sOpt (litS "s"))
          (sThen (sOptChar pyIsSpace)
            (sOpt (sAlt [litS "soupe", litS "cafe", litS "caf\u221A\u00A9"]))))),
    sThen (litS "pinc") (sThen (sAlt [litS "e", litS "\u221A\u00A9e"]) (sOpt (litS "s"))),
    sThen (litS "tranche") (sOpt (litS "s")),
    sThen (litS "gousse") (sOpt (litS "s")),
    sThen (litS "boi") (sThen (sAlt [litS "te", litS "\u221A\u00C6te"]) (sOpt (litS "s"))),
    sThen (litS "sachet") (sOpt (litS "s")),
    sThen (litS "verre") (sOpt (litS "s")),
    sThen (litS "tasse") (sOpt (litS "s")),
    sThen (litS "cup") (sOpt (litS "s")),
    sThen (litS "pi") (sThen (sClassCI ['e', '\u221A', '\u00AE'])
      (sThen (litS "ce") (sOpt (litS "s")))) ]

def unitMatch : Scan := sAlt unitAlts

/-- Try a full `QTY_RE` match starting at this position; returns the
captured (num, unit) texts. -/
def qtyTryAt (s : List Char) : Option (List Char × List Char) :=
  firstSome (fun nc =>
    let (sp, r2) := takeSpaces nc.2
    firstSome (fun sq => (unitMatch sq.2).map (fun ur => (nc.1, ur.1)))
      (splitsDesc sp r2)) (numCands s)

/-- `QTY_RE.search(line)`: leftmost starting position wins. -/
def qtyScan : List Char → Option (List Char × List Char)
  | [] => none
  | s@(_ :: rest) =>
    match qtyTryAt s with
    | some x => some x
    | none => qtyScan rest

/-- `float(...)` on the strings `_to_float` builds: optional digits,
optional single decimal point, surrounding whitespace allowed; `none`
models `ValueError`. -/
def digitsToNat (l : List Char) : Nat :=
  l.foldl (fun acc c => acc * 10 + (c.toNat - 48)) 0

def pyFloat (s : String) : Option ℚ :=
  let u := stripList s.toList
  let (d1, r1) := takeDigits u
  match r1 with
  | [] => if d1.isEmpty then none else some (digitsToNat d1 : ℚ)
  | '.' :: r2 =>
    let (d2, r3) := takeDigits r2
    if !r3.isEmpty then none
    else if d1.isEmpty && d2.isEmpty then none
    else some ((digitsToNat d1 : ℚ) + (digitsToNat d2 : ℚ) / (10 : ℚ) ^ d2.length)
  | _ => none

/-- The whole-string `map_unicode` of `_to_float`.  In the committed
source its keys are the two- and three-character mojibake strings (the
double-encoded vulgar fractions), so a single captured class character
never hits a key. -/
def fracMapWhole (s : String) : String :=
  if strEqB s "\u00AC\u03A9" then "1/2"
  else if strEqB s "\u00AC\u00BA" then "1/4"
  else if strEqB s "\u00AC\u00E6" then "3/4"
  else if strEqB s "\u201A\u00D6\u00EC" then "1/3"
  else if strEqB s "\u201A\u00D6\u00EE" then "2/3"
  else s

/-- `_to_float`: strip, `,`→`.`, unicode fractions, `a/b` split (a zero
denominator raises `ZeroDivisionError`, modelled by `none`; a split into
anything but two parts raises `ValueError`). -/
def to_float (s : String) : Option ℚ :=
  let t := pyReplace (pyStrip s) "," "."
  let t := fracMapWhole t
  if strContains "/" t then
    match splitOnCharS '/' t with
    | [a, b] =>
      match pyFloat a, pyFloat b with
      | some x, some y => if y = 0 then none else some (x / y)
      | _, _ => none
    | _ => none
  else pyFloat t

/-- `deaccent((row.get("food", "") + "|" + row.get("aliases", "")).lower())`. -/
def aliasAll (row : FoodRow) : String :=
  deaccent (strLower (row.food ++ "|" ++ row.aliases))

/-- `re.search(r"pi[e\u221A\u00AE]ces?|gousses?|tranches?", unit)` as a
boolean (no flags here, and the optional trailing `s` is irrelevant for
a substring search): the class contributes the three possible middle
characters of the committed pattern. -/
def piecesLike (u : String) : Bool :=
  strContains "piece" u || strContains "pi\u221Ace" u || strContains "pi\u00AEce" u ||
    strContains "gousse" u || strContains "tranche" u

/-- `parse_quantity`: grams for an ingredient line given its matched
table row.  `none` models an escaping exception. -/
def parse_quantity (line : String) (row : FoodRow) : Option ℚ :=
  match qtyScan line.toList with
  | none =>
    if strEqB row.unit "unit" then some (row.grams_per_unit.getD 100) else some 100
  | some (numC, unitC) =>
    match to_float (String.mk numC) with
    | none => none
    | some val =>
      let unit := pyReplace (pyReplace (pyReplace (strLower (String.mk unitC))
        "grammes" "g") "c\u221A\u2020s" "cs") "c\u221A\u2020c" "cc"
      if memStr unit ["cs", "cuill\u221A\u00AEre soupe", "cuillere soupe"] then
        some (val * (if strContains "huile" (aliasAll row) then 15 else 12))
      else if memStr unit
          ["cc", "cuill\u221A\u00AEre cafe", "cuillere cafe", "caf\u221A\u00A9"] then
        some (val * 5)
      else if strEqB unit "ml" then some val
      else if strEqB unit "cl" then some (val * 10)
      else if strEqB unit "l" then some (val * 1000)
      else if piecesLike unit then
        let g0 := row.grams_per_unit.getD 0
        let grams := if g0 = 0 then (if strContains "tranche" unit then (30 : ℚ) else 5) else g0
        some (val * grams)
      else if memStr unit ["cups", "cup", "tasse", "tasses", "verre", "verres"] then
        some (val * (if strContains "huile" (aliasAll row) then 220 else 240))
      else if memStr unit ["g", "gramme"] then some val
      else some (val * 100)


/-!
## Nutrition aggregator (`compute_nutrition`)

Python `round(x)` and `round(x, 1)` round half to even; on the exact
rational model this is banker's rounding on ℚ.
-/

/-- Python `round(q)`: nearest integer, ties to even. -/
def pyRound (q : ℚ) : ℤ :=
  let f := ⌊q⌋
  let r := q - f
  if r < 1/2 then f
  else if 1/2 < r then f + 1
  else if Even f then f else f + 1

/-- Python `round(q, 1)`: nearest tenth, ties to even. -/
def pyRound1 (q : ℚ) : ℚ :=
  (pyRound (q * 10) : ℚ) / 10

/-- The running `totals` dictionary of `compute_nutrition`. -/
structure Totals where
  kcal : ℚ
  prot : ℚ
  fat : ℚ
  carb : ℚ
deriving DecidableEq, Repr

/-- One step of the accumulation loop of `compute_nutrition`: lines with
no table match are skipped; `none` if `parse_quantity` raises. -/
def accumStep (table : List FoodRow) (t : Totals) (line : String) : Option Totals :=
  match match_food table line with
  | none => some t
  | some row =>
    match parse_quantity line row with
    | none => none
    | some qty =>
      some ⟨t.kcal + row.kcal_per_100g * qty / 100,
            t.prot + row.protein_g_per_100g * qty / 100,
            t.fat + row.fat_g_per_100g * qty / 100,
            t.carb + row.carb_g_per_100g * qty / 100⟩

def accumTotalsFrom (table : List FoodRow) (t : Totals) : List String → Option Totals
  | [] => some t
  | line :: rest =>
    match accumStep table t line with
    | none => none
    | some t2 => accumTotalsFrom table t2 rest

/-- The accumulation loop of `compute_nutrition`, started from zero
totals: full-precision sums in line order. -/
def accumTotals (table : List FoodRow) (lines : List String) : Option Totals :=
  accumTotalsFrom table ⟨0, 0, 0, 0⟩ lines

/-- The dictionary `compute_nutrition` returns. -/
structure NutritionResult where
  total_kcal : ℤ
  kcal_per_portion : ℤ
  proteins_g : ℚ
  lipids_g : ℚ
  carbs_g : ℚ
  proteins_g_per_portion : ℚ
  lipids_g_per_portion : ℚ
  carbs_g_per_portion : ℚ
  portions : ℤ
deriving DecidableEq, Repr

/-- `compute_nutrition`: accumulate totals, clamp portions with
`max(portions, 1)`, divide, and round only in the returned values. -/
def compute_nutrition (table : List FoodRow) (ingredients : List String)
    (portions : ℤ) : Option NutritionResult :=
  match accumTotals table ingredients with
  | none => none
  | some t =>
    let p : ℤ := max portions 1
    some { total_kcal := pyRound t.kcal,
           kcal_per_portion := pyRound (t.kcal / (p : ℚ)),
           proteins_g := pyRound1 t.prot,
           lipids_g := pyRound1 t.fat,
           carbs_g := pyRound1 t.carb,
           proteins_g_per_portion := pyRound1 (t.prot / (p : ℚ)),
           lipids_g_per_portion := pyRound1 (t.fat / (p : ℚ)),
           carbs_g_per_portion := pyRound1 (t.carb / (p : ℚ)),
           portions := p }


/-!
## Section splitter (`split_sections`) and orchestrator status logic

The header regex lists `INGR_HEADERS` / `STEP_HEADERS` and the marker
regex `STEP_MARK_RE` are pure data consumed through `re.search`; the
splitter is embedded parameterically in the three line predicates
("does any pattern of the list match this line"), keeping its control
flow — which is what the claims are about — exactly as in the source.
-/

/-- `find_header(patterns, start)`: first line index `≥ start` whose
text matches one of the patterns. -/
def findHeader (P : String → Bool) (lines : List String) (start : Nat) : Option Nat :=
  ((lines.drop start).findIdx? P).map (· + start)

structure SectionSplit where
  ingredients : String
  steps : String
  status : String
  notes : List String
deriving DecidableEq, Repr

/-- The common tail of `split_sections`: compute the status from the two
blocks and append the empty-block notes. -/
def finishSplit (ing stp : String) (notes : List String) : SectionSplit :=
  { ingredients := ing, steps := stp,
    status := if !(strEqB ing "") && !(strEqB stp "") then "CONFIDENT" else "INCOMPLETE",
    notes := notes ++ (if strEqB ing "" then ["empty_ingredients_block"] else [])
                   ++ (if strEqB stp "" then ["empty_steps_block"] else []) }

/-- The body of `split_sections` on the already stripped line list. -/
def splitSectionsLines (ingrP stepP stepMarkP : String → Bool)
    (lines : List String) : SectionSplit :=
  match lines with
  | [] => ⟨"", "", "INCOMPLETE", ["empty_text"]⟩
  | _ :: _ =>
    let iIng := findHeader ingrP lines 0
    let iStep := findHeader stepP lines (match iIng with | some i => i + 1 | none => 0)
    let notes0 := (match iIng with | none => ["missing_ingredients_header"] | some _ => [])
               ++ (match iStep with | none => ["missing_steps_header"] | some _ => [])
    match iIng, iStep with
    | none, some j =>
      finishSplit (pyStrip (joinNL (lines.take j))) (pyStrip (joinNL (lines.drop (j + 1))))
        (notes0 ++ ["ingredients_fallback_before_steps"])
    | some i, none =>
      let block := lines.drop (i + 1)
      (match block.findIdx? stepMarkP with
       | some idx =>
         finishSplit (pyStrip (joinNL (block.take idx))) (pyStrip (joinNL (block.drop idx)))
           (notes0 ++ ["steps_fallback_detected"])
       | none => finishSplit (pyStrip (joinNL block)) "" notes0)
    | none, none =>
      (match lines.findIdx? stepMarkP with
       | none => ⟨"", "", "INCOMPLETE", notes0⟩
       | some idx =>
         finishSplit (pyStrip (joinNL (lines.take idx))) (pyStrip (joinNL (lines.drop idx)))
           (notes0 ++ ["fallback_no_headers"]))
    | some i, some j =>
      if j ≤ i then ⟨"", "", "INCOMPLETE", notes0⟩
      else
        finishSplit (pyStrip (joinNL ((lines.drop (i + 1)).take (j - i - 1))))
          (pyStrip (joinNL (lines.drop (j + 1)))) notes0

/-- `split_sections`: split the text into stripped lines and run the
header / fallback logic. -/
def split_sections (ingrP stepP stepMarkP : String → Bool) (text : String) : SectionSplit :=
  splitSectionsLines ingrP stepP stepMarkP ((pySplitlines text).map pyStrip)

/-- The status / notes rewrite the orchestrator (`main`) applies after
ingredient parsing: PARTIAL when invalid lines coexist with valid
ingredients and steps, INCOMPLETE when either final list is empty. -/
def adjustStatus (status : String) (invalid ingredientsList stepsList notes : List String) :
    String × List String :=
  let s1n1 : String × List String :=
    if !invalid.isEmpty then
      (if !ingredientsList.isEmpty && !stepsList.isEmpty then
        ("PARTIAL", notes ++ ["partial_invalid_ingredients"])
       else ("INCOMPLETE", notes ++ ["invalid_ingredient_lines"]))
    else (status, notes)
  if ingredientsList.isEmpty || stepsList.isEmpty then
    ("INCOMPLETE",
      s1n1.2 ++ (if ingredientsList.isEmpty then ["no_valid_ingredients"] else [])
             ++ (if stepsList.isEmpty then ["no_steps"] else []))
  else s1n1

/-!
## Ingredient line parser (`parse_ingredients_lines`)

The five line regexes (`SKIP_INGR_LINE_RE`, `SKIP_INGR_SIMPLE_RE`,
`QTY_ONLY_RE`, `VERB_RE`, `ING_LINE_RE`) and `normalize_qty_line` are
again pure data; the parser is embedded parameterically in them.
-/

structure LineGrammar where
  skipLine : String → Bool
  skipSimple : String → Bool
  qtyOnly : String → Bool
  verb : String → Bool
  ingLine : String → Bool
  normQty : String → String

/-- `re.search(r"\d", line)`. -/
def hasDigit (line : String) : Bool := line.toList.any Char.isDigit

/-- `line.endswith(":")`. -/
def endsColon (line : String) : Bool := line.toList.getLast? = some ':'

/-- The characters of the bullet class `^[\-...*+]+` as committed: the
intended `•` is the three mojibake characters U+201A U+00C4 U+00A2. -/
def bulletChars : List Char := ['-', '\u201A', '\u00C4', '\u00A2', '*', '+']

/-- `re.sub(r"^[\-...*+]+\s*", "", raw).strip()` with the committed
bullet class. -/
def stripBullets (raw : String) : String :=
  let l := raw.toList
  let l2 :=
    match l.head? with
    | some c =>
      if bulletChars.contains c then
        (l.dropWhile bulletChars.contains).dropWhile pyIsSpace
      else l
    | none => l
  String.mk (stripList l2)

/-- The preprocessed `raw_lines` of `parse_ingredients_lines`. -/
def rawLines (block : String) : List String :=
  (pySplitlines block).map stripBullets

/-- Classify one (possibly merged) line after `normalize_qty_line`. -/
def ingClassify (G : LineGrammar) (l : String) (vi : List String × List String) :
    List String × List String :=
  let l2 := G.normQty l
  if G.verb l2 then (vi.1, l2 :: vi.2)
  else if G.ingLine l2 then (l2 :: vi.1, vi.2)
  else (vi.1, l2 :: vi.2)

/-- The main `while` loop of `parse_ingredients_lines` over the
non-empty preprocessed lines: skip labels/seasonings, merge a
quantity-only line with the following line, classify the rest. -/
def ingLoop (G : LineGrammar) : List String → List String × List String
  | [] => ([], [])
  | [line] =>
    if endsColon line && !(hasDigit line) then ([], [])
    else if G.skipLine line || G.skipSimple line then ([], [])
    else ingClassify G line ([], [])
  | line :: nxt :: rest2 =>
    if endsColon line && !(hasDigit line) then ingLoop G (nxt :: rest2)
    else if G.skipLine line || G.skipSimple line then ingLoop G (nxt :: rest2)
    else if G.qtyOnly line && !(G.skipLine nxt) && !(hasDigit nxt) then
      ingClassify G (line ++ " " ++ nxt) (ingLoop G rest2)
    else ingClassify G line (ingLoop G (nxt :: rest2))

/-- `parse_ingredients_lines`: strict pass, then the raw-lines fallback
when the strict pass accepted nothing and raw lines exist. -/
def parse_ingredients_lines (G : LineGrammar) (block : String) :
    List String × List String :=
  let raw := rawLines block
  let lines := raw.filter (fun l => !(strEqB l ""))
  let vi := ingLoop G lines
  if vi.1.isEmpty && !raw.isEmpty then (raw.take 80, [])
  else vi

/-!
## Index record fields (`main`)

For the field-presence claim only the key sets of the dictionaries
matter.  `entryKeys status` is the key list of the `entry` dict `main`
builds: the sixteen literal keys followed by the keys spliced in with
`**nutr`, which come from `compute_nutrition` only when the status is
CONFIDENT and otherwise from the literal fallback dict.
-/

def nutritionKeys : List String :=
  ["total_kcal", "kcal_per_portion", "proteins_g", "lipids_g", "carbs_g",
   "proteins_g_per_portion", "lipids_g_per_portion", "carbs_g_per_portion",
   "portions"]

def fallbackNutritionKeys : List String :=
  ["total_kcal", "kcal_per_portion", "proteins_g", "lipids_g", "carbs_g",
   "nutrition_details"]

def entryKeys (status : String) : List String :=
  ["title", "normalized_title", "title_key", "file_id", "mimeType",
   "webViewLink", "fullPath", "createdTime", "modifiedTime",
   "ingredients_raw", "steps_raw", "ingredients", "steps",
   "parse_status", "parse_notes", "ingredients_invalid"]
  ++ (if strEqB status "CONFIDENT" then nutritionKeys else fallbackNutritionKeys)

/-- The field list the specification promises for every record. -/
def claimedKeys : List String :=
  ["title", "normalized_title", "title_key", "ingredients_raw", "steps_raw",
   "ingredients", "steps", "ingredients_invalid", "parse_status", "parse_notes",
   "total_kcal", "kcal_per_portion", "proteins_g", "lipids_g", "carbs_g",
   "proteins_g_per_portion", "lipids_g_per_portion", "carbs_g_per_portion",
   "portions"]

/-!
## Claims
-/

/-- Claim C9: the dedup keys of "Poulet au Curry" and "Curry de Poulet"
coincide (stop words removed, tokens sorted), while their normalized
titles differ, so the pair is a near duplicate but not an exact one. -/
theorem title_key_near_duplicate_pair :
    title_key "Poulet au Curry" = title_key "Curry de Poulet" ∧
    normalize_title "Poulet au Curry" ≠ normalize_title "Curry de Poulet" := by
  decide

set_option maxRecDepth 4000 in
/-- Claim C1: unit conversion of `parse_quantity` — grams pass through
("200 g farine" ↦ 200), a tablespoon is 15 g on an oil-like row
("2 cs huile d'olive" ↦ 30), a teaspoon is 5 g for any row
("1 cc sel" ↦ 5), and a bare count on a per-unit row uses the row's
grams-per-unit ("1 oignon" ↦ 110). -/
theorem parse_quantity_conversion_examples :
    (∀ row : FoodRow, parse_quantity "200 g farine" row = some 200) ∧
    (∀ row : FoodRow, strContains "huile" (aliasAll row) = true →
      parse_quantity "2 cs huile d\x27olive" row = some 30) ∧
    (∀ row : FoodRow, parse_quantity "1 cc sel" row = some 5) ∧
    (∀ row : FoodRow, row.unit = "unit" → row.grams_per_unit = some 110 →
      parse_quantity "1 oignon" row = some 110) := by
  refine ⟨fun row => ?_, fun row h => ?_, fun row => ?_, fun row h1 h2 => ?_⟩
  · with_unfolding_all rfl
  · have e : parse_quantity "2 cs huile d\x27olive" row
        = some ((2 : ℚ) * (if strContains "huile" (aliasAll row) then 15 else 12)) := by
      with_unfolding_all rfl
    rw [e, if_pos h]
    norm_num
  · with_unfolding_all rfl
  · obtain ⟨f, al, u, g, k, pr, fa, ca⟩ := row
    simp only at h1 h2
    subst h1
    subst h2
    with_unfolding_all rfl

/-- Witness for C1 at the builtin oil and onion rows. -/
theorem parse_quantity_conversion_examples_witness :
    parse_quantity "2 cs huile d\x27olive" huileRow = some 30 ∧
    parse_quantity "1 oignon" oignonRow = some 110 :=
  ⟨parse_quantity_conversion_examples.2.1 huileRow (by decide),
   parse_quantity_conversion_examples.2.2.2 oignonRow rfl rfl⟩

/-- The claimed fields that do not depend on the record's status. -/
def baseClaimedKeys : List String :=
  ["title", "normalized_title", "title_key", "ingredients_raw", "steps_raw",
   "ingredients", "steps", "ingredients_invalid", "parse_status", "parse_notes",
   "total_kcal", "kcal_per_portion", "proteins_g", "lipids_g", "carbs_g"]

/-- Counterexample to claim C8 as stated: a record whose parse status is
INCOMPLETE (and likewise PARTIAL) lacks the claimed per-portion macro
fields and the portions field. -/
theorem entry_keys_incomplete_missing_fields :
    memStr "proteins_g_per_portion" (entryKeys "INCOMPLETE") = false ∧
    memStr "lipids_g_per_portion" (entryKeys "INCOMPLETE") = false ∧
    memStr "carbs_g_per_portion" (entryKeys "INCOMPLETE") = false ∧
    memStr "portions" (entryKeys "INCOMPLETE") = false ∧
    memStr "portions" (entryKeys "PARTIAL") = false := by
  decide

/-- Claim C8 (amended): a CONFIDENT record carries every claimed field;
every record, whatever its status string, carries the status-independent
claimed fields; the per-portion macro fields and portions are absent from
non-CONFIDENT records (which carry nutrition_details instead). -/
theorem entry_keys_by_status :
    (claimedKeys.all (fun k => memStr k (entryKeys "CONFIDENT")) = true) ∧
    (∀ status : String,
      baseClaimedKeys.all (fun k => memStr k (entryKeys status)) = true) ∧
    memStr "nutrition_details" (entryKeys "INCOMPLETE") = true ∧
    memStr "proteins_g_per_portion" (entryKeys "PARTIAL") = false := by
  refine ⟨by decide, fun status => ?_, by decide, by decide⟩
  unfold entryKeys
  cases h : strEqB status "CONFIDENT" <;> simp [h] <;> decide

/-- Claim C5: when the strict grammar accepts no line but preprocessed
raw lines exist, `parse_ingredients_lines` returns the raw lines
verbatim, capped at 80, with an empty invalid list. -/
theorem parse_ingredients_raw_fallback :
    ∀ (G : LineGrammar) (block : String),
      (ingLoop G ((rawLines block).filter (fun l => !(strEqB l "")))).1 = [] →
      (∃ l, l ∈ rawLines block ∧ l ≠ "") →
      parse_ingredients_lines G block = ((rawLines block).take 80, []) := by
  intro G block h1 h2
  unfold parse_ingredients_lines
  have hraw : (rawLines block).isEmpty = false := by
    obtain ⟨l, hl, _⟩ := h2
    cases hr : rawLines block
    · rw [hr] at hl; cases hl
    · rfl
  simp only [h1, hraw, List.isEmpty_nil, Bool.not_false, Bool.and_self, if_true]

/-- Witness for C5: a one-line block ("farine") that the all-rejecting
grammar parses to nothing strictly, so the raw line comes back. -/
theorem parse_ingredients_raw_fallback_witness :
    parse_ingredients_lines
      ⟨fun _ => false, fun _ => false, fun _ => false, fun _ => false,
       fun _ => false, fun l => l⟩ "farine"
      = ((rawLines "farine").take 80, []) :=
  parse_ingredients_raw_fallback _ "farine" rfl ⟨"farine", by decide, by decide⟩

/-- Claim C3: `match_food` returns the first row of the table, in table
order, whose candidate names word-match the normalized line; `none` iff
no row matches; and an earlier matching row wins over any later one. -/
theorem match_food_first_match :
    ∀ (table : List FoodRow) (line : String),
      match_food table line = table.find? (fun row => rowMatches row line) ∧
      (match_food table line = none ↔ ∀ row ∈ table, rowMatches row line = false) ∧
      (∀ pre r post, table = pre ++ r :: post →
        (∀ r2 ∈ pre, rowMatches r2 line = false) → rowMatches r line = true →
        match_food table line = some r) := by
  intro table line
  have h1 : match_food table line = table.find? (fun row => rowMatches row line) := by
    induction table with
    | nil => rfl
    | cons a rest ih =>
      cases h : rowMatches a line
      · rw [List.find?_cons_of_neg _ (by simp [h])]
        simp only [match_food, h, if_false]
        exact ih
      · rw [List.find?_cons_of_pos _ (by simp [h])]
        simp only [match_food, h, if_true]
  refine ⟨h1, ?_, ?_⟩
  · rw [h1, List.find?_eq_none]
    simp only [Bool.not_eq_true]
  · intro pre r post htab hpre hr
    subst htab
    clear h1
    induction pre with
    | nil => simp [match_food, hr]
    | cons a pre ih =>
      have ha : rowMatches a line = false := hpre a (List.mem_cons_self a pre)
      rw [List.cons_append]
      simp only [match_food, ha, Bool.false_eq_true, if_false]
      exact ih (fun r2 h2 => hpre r2 (List.mem_cons_of_mem a h2))

/-- Witness for C3 on the builtin table: the oil row is hit first for
"1 cs huile d'olive" because none of the six earlier rows matches. -/
theorem match_food_first_match_witness :
    match_food NUTRI "1 cs huile d\x27olive" = some huileRow :=
  (match_food_first_match NUTRI "1 cs huile d\x27olive").2.2
    [pouletRow, pommeDeTerreRow, rizRow, patesRow, carotteRow, oignonRow]
    huileRow [] rfl (by decide) (by decide)

/-- Helper: when no line satisfies the ingredients-header predicate and
line `j` is the first satisfying the steps-header predicate, the splitter
takes fallback 1 of the source. -/
theorem splitSectionsLines_no_ingr_header (P Q R : String → Bool)
    (lines : List String) (j : Nat)
    (hP : ∀ l ∈ lines, P l = false) (hQ : lines.findIdx? Q = some j) :
    splitSectionsLines P Q R lines
      = finishSplit (pyStrip (joinNL (lines.take j)))
          (pyStrip (joinNL (lines.drop (j + 1))))
          ["missing_ingredients_header", "ingredients_fallback_before_steps"] := by
  cases lines with
  | nil => simp at hQ
  | cons a rest =>
    have h0 : (a :: rest).findIdx? P = none := List.findIdx?_eq_none_iff.mpr hP
    have hIng : findHeader P (a :: rest) 0 = none := by
      simp [findHeader, List.drop_zero, h0]
    have hStep : findHeader Q (a :: rest) 0 = some j := by
      simp [findHeader, List.drop_zero, hQ]
    simp only [splitSectionsLines, hIng, hStep]
    rfl

/-- Claim C4: on a document whose stripped lines contain no
ingredients-header line but do contain a steps-header line (first at
index `j`), `split_sections` returns the lines before `j` (joined,
stripped) as the ingredients block, the lines after `j` as the steps
block, and records the fired fallback note. -/
theorem split_sections_ingredients_fallback :
    ∀ (P Q R : String → Bool) (text : String) (j : Nat),
      (∀ l ∈ (pySplitlines text).map pyStrip, P l = false) →
      ((pySplitlines text).map pyStrip).findIdx? Q = some j →
      (split_sections P Q R text).ingredients
          = pyStrip (joinNL (((pySplitlines text).map pyStrip).take j)) ∧
      (split_sections P Q R text).steps
          = pyStrip (joinNL (((pySplitlines text).map pyStrip).drop (j + 1))) ∧
      "ingredients_fallback_before_steps" ∈ (split_sections P Q R text).notes := by
  intro P Q R text j hP hQ
  unfold split_sections
  rw [splitSectionsLines_no_ingr_header P Q R _ j hP hQ]
  refine ⟨rfl, rfl, ?_⟩
  simp only [finishSplit]
  exact List.mem_append_left _ (List.mem_append_left _ (by decide))

/-- Witness for C4 on a concrete four-line document whose only header
line is the steps header at index 2. -/
theorem split_sections_ingredients_fallback_witness :
    (split_sections (fun _ => false) (fun l => strEqB l "Etapes") (fun _ => false)
        "sel\npoivre\nEtapes\nmelanger").ingredients
      = pyStrip (joinNL (((pySplitlines "sel\npoivre\nEtapes\nmelanger").map pyStrip).take 2)) ∧
    (split_sections (fun _ => false) (fun l => strEqB l "Etapes") (fun _ => false)
        "sel\npoivre\nEtapes\nmelanger").steps
      = pyStrip (joinNL (((pySplitlines "sel\npoivre\nEtapes\nmelanger").map pyStrip).drop 3)) ∧
    "ingredients_fallback_before_steps"
      ∈ (split_sections (fun _ => false) (fun l => strEqB l "Etapes") (fun _ => false)
          "sel\npoivre\nEtapes\nmelanger").notes :=
  split_sections_ingredients_fallback _ _ _ "sel\npoivre\nEtapes\nmelanger" 2
    (fun l _ => rfl) (by rfl)

/-- Helper: `finishSplit` only ever assigns CONFIDENT or INCOMPLETE. -/
theorem finishSplit_status (ing stp : String) (notes : List String) :
    (finishSplit ing stp notes).status = "CONFIDENT" ∨
    (finishSplit ing stp notes).status = "INCOMPLETE" := by
  unfold finishSplit
  dsimp only
  split_ifs <;> simp

/-- Helper: the splitter's status on any line list is CONFIDENT or
INCOMPLETE. -/
theorem splitSectionsLines_status (P Q R : String → Bool) (lines : List String) :
    (splitSectionsLines P Q R lines).status = "CONFIDENT" ∨
    (splitSectionsLines P Q R lines).status = "INCOMPLETE" := by
  cases lines with
  | nil => exact Or.inr rfl
  | cons a rest =>
    cases hIng : findHeader P (a :: rest) 0 with
    | none =>
      simp only [splitSectionsLines, hIng]
      cases hStep : findHeader Q (a :: rest) 0 with
      | none =>
        simp only [hStep]
        cases hMark : (a :: rest).findIdx? R with
        | none => simp [hMark]
        | some idx => simp only [hMark]; exact finishSplit_status _ _ _
      | some j =>
        simp only [hStep]
        exact finishSplit_status _ _ _
    | some i =>
      simp only [splitSectionsLines, hIng]
      cases hStep : findHeader Q (a :: rest) (i + 1) with
      | none =>
        simp only [hStep]
        cases hMark : ((a :: rest).drop (i + 1)).findIdx? R with
        | none => simp only [hMark]; exact finishSplit_status _ _ _
        | some idx => simp only [hMark]; exact finishSplit_status _ _ _
      | some j =>
        simp only [hStep]
        by_cases hij : j ≤ i
        · rw [if_pos hij]; exact Or.inr rfl
        · rw [if_neg hij]; exact finishSplit_status _ _ _

/-- Helper: for a non-PARTIAL incoming status, the orchestrator's rewrite
yields PARTIAL exactly when invalid lines coexist with non-empty
ingredient and step lists. -/
theorem adjustStatus_partial_iff (s : String) (hs : s = "PARTIAL" → False)
    (invalid ing stp notes : List String) :
    (adjustStatus s invalid ing stp notes).1 = "PARTIAL" ↔
      invalid ≠ [] ∧ ing ≠ [] ∧ stp ≠ [] := by
  unfold adjustStatus
  rcases invalid with _ | ⟨i, il⟩ <;> rcases ing with _ | ⟨a, al⟩ <;>
    rcases stp with _ | ⟨b, bl⟩ <;> simp_all

/-- Claim C10: `split_sections` itself only returns CONFIDENT or
INCOMPLETE — never PARTIAL — and the orchestrator's status rewrite is the
only source of PARTIAL, firing exactly when invalid ingredient lines
coexist with non-empty ingredient and step lists. -/
theorem split_status_domain_and_partial_only_orchestrator :
    ∀ (P Q R : String → Bool) (text : String) (invalid ing stp notes : List String),
      ((split_sections P Q R text).status = "CONFIDENT" ∨
        (split_sections P Q R text).status = "INCOMPLETE") ∧
      ((adjustStatus (split_sections P Q R text).status invalid ing stp notes).1
          = "PARTIAL" ↔ invalid ≠ [] ∧ ing ≠ [] ∧ stp ≠ []) := by
  intro P Q R text invalid ing stp notes
  have hd : (split_sections P Q R text).status = "CONFIDENT" ∨
      (split_sections P Q R text).status = "INCOMPLETE" :=
    splitSectionsLines_status P Q R ((pySplitlines text).map pyStrip)
  refine ⟨hd, adjustStatus_partial_iff _ ?_ invalid ing stp notes⟩
  intro hp
  rcases hd with h | h <;> rw [hp] at h <;> exact absurd h (by decide)

/-- Claim C2: on ["150 g poulet", "1 cs huile d'olive"] with 3 portions
and the builtin table (poulet 165 kcal/100g, oil 884 kcal/100g),
`compute_nutrition` reports 380 total kcal and 127 kcal per portion; and
in general every returned value is the banker's rounding of the exact
full-precision totals — rounding happens only at presentation. -/
theorem compute_nutrition_aggregation :
    (∃ r, compute_nutrition NUTRI ["150 g poulet", "1 cs huile d\x27olive"] 3 = some r ∧
        r.total_kcal = 380 ∧ r.kcal_per_portion = 127) ∧
    (∀ (table : List FoodRow) (ings : List String) (ps : ℤ) (r : NutritionResult),
      compute_nutrition table ings ps = some r →
      ∃ t, accumTotals table ings = some t ∧
        r.total_kcal = pyRound t.kcal ∧
        r.kcal_per_portion = pyRound (t.kcal / ((max ps 1 : ℤ) : ℚ)) ∧
        r.proteins_g = pyRound1 t.prot ∧
        r.lipids_g = pyRound1 t.fat ∧
        r.carbs_g = pyRound1 t.carb) := by
  constructor
  · refine ⟨⟨380, 127, 46.5, 20.4, 0, 15.5, 6.8, 0, 3⟩, ?_, rfl, rfl⟩
    with_unfolding_all decide
  · intro table ings ps r h
    unfold compute_nutrition at h
    cases ht : accumTotals table ings with
    | none => rw [ht] at h; cases h
    | some t =>
      rw [ht] at h
      simp only [Option.some.injEq] at h
      subst h
      exact ⟨t, rfl, rfl, rfl, rfl, rfl, rfl⟩

/-- Witness for C2's rounding clause at the concrete example. -/
theorem compute_nutrition_aggregation_witness :
    ∃ t, accumTotals NUTRI ["150 g poulet", "1 cs huile d\x27olive"] = some t ∧
      (380 : ℤ) = pyRound t.kcal ∧
      (127 : ℤ) = pyRound (t.kcal / ((max (3 : ℤ) 1 : ℤ) : ℚ)) ∧
      (46.5 : ℚ) = pyRound1 t.prot ∧
      (20.4 : ℚ) = pyRound1 t.fat ∧
      (0 : ℚ) = pyRound1 t.carb :=
  compute_nutrition_aggregation.2 NUTRI ["150 g poulet", "1 cs huile d\x27olive"] 3
    ⟨380, 127, 46.5, 20.4, 0, 15.5, 6.8, 0, 3⟩ (by with_unfolding_all decide)

/-- Claim C7: `compute_nutrition` divides every total by
`max(portions, 1)`, so portions = 0 behaves exactly like portions = 1
(the divisor is at least 1, never zero) and the returned portions field
is the clamped value. -/
theorem compute_nutrition_portions_clamped :
    ∀ (table : List FoodRow) (ings : List String) (ps : ℤ),
      (1 : ℤ) ≤ max ps 1 ∧
      compute_nutrition table ings 0 = compute_nutrition table ings 1 ∧
      (∀ r, compute_nutrition table ings ps = some r →
        r.portions = max ps 1 ∧
        r.kcal_per_portion
          = pyRound (((accumTotals table ings).getD ⟨0, 0, 0, 0⟩).kcal
              / ((max ps 1 : ℤ) : ℚ)) ∧
        r.proteins_g_per_portion
          = pyRound1 (((accumTotals table ings).getD ⟨0, 0, 0, 0⟩).prot
              / ((max ps 1 : ℤ) : ℚ)) ∧
        r.lipids_g_per_portion
          = pyRound1 (((accumTotals table ings).getD ⟨0, 0, 0, 0⟩).fat
              / ((max ps 1 : ℤ) : ℚ)) ∧
        r.carbs_g_per_portion
          = pyRound1 (((accumTotals table ings).getD ⟨0, 0, 0, 0⟩).carb
              / ((max ps 1 : ℤ) : ℚ))) := by
  intro table ings ps
  refine ⟨le_max_right ps 1, ?_, ?_⟩
  · have h01 : max (0 : ℤ) 1 = max (1 : ℤ) 1 := by decide
    unfold compute_nutrition
    rw [h01]
  · intro r h
    unfold compute_nutrition at h
    cases ht : accumTotals table ings with
    | none => rw [ht] at h; cases h
    | some t =>
      rw [ht] at h
      simp only [Option.some.injEq] at h
      subst h
      exact ⟨rfl, rfl, rfl, rfl, rfl⟩

/-- Witness for C7 at the empty ingredient list and portions = 0. -/
theorem compute_nutrition_portions_clamped_witness :
    (⟨0, 0, 0, 0, 0, 0, 0, 0, 1⟩ : NutritionResult).portions = max (0 : ℤ) 1 ∧
    (⟨0, 0, 0, 0, 0, 0, 0, 0, 1⟩ : NutritionResult).kcal_per_portion
      = pyRound (((accumTotals NUTRI []).getD ⟨0, 0, 0, 0⟩).kcal
          / ((max (0 : ℤ) 1 : ℤ) : ℚ)) ∧
    (⟨0, 0, 0, 0, 0, 0, 0, 0, 1⟩ : NutritionResult).proteins_g_per_portion
      = pyRound1 (((accumTotals NUTRI []).getD ⟨0, 0, 0, 0⟩).prot
          / ((max (0 : ℤ) 1 : ℤ) : ℚ)) ∧
    (⟨0, 0, 0, 0, 0, 0, 0, 0, 1⟩ : NutritionResult).lipids_g_per_portion
      = pyRound1 (((accumTotals NUTRI []).getD ⟨0, 0, 0, 0⟩).fat
          / ((max (0 : ℤ) 1 : ℤ) : ℚ)) ∧
    (⟨0, 0, 0, 0, 0, 0, 0, 0, 1⟩ : NutritionResult).carbs_g_per_portion
      = pyRound1 (((accumTotals NUTRI []).getD ⟨0, 0, 0, 0⟩).carb
          / ((max (0 : ℤ) 1 : ℤ) : ℚ)) :=
  (compute_nutrition_portions_clamped NUTRI [] 0).2.2
    ⟨0, 0, 0, 0, 0, 0, 0, 0, 1⟩ (by with_unfolding_all decide)

/-- Helper: the modelled `float(...)` never returns a negative value
(its grammar has no sign). -/
theorem pyFloat_nonneg (s : String) (q : ℚ) (h : pyFloat s = some q) : 0 ≤ q := by
  simp only [pyFloat, takeDigits] at h
  split at h
  · split at h
    · cases h
    · obtain rfl := Option.some.inj h
      positivity
  · split at h
    · cases h
    · split at h
      · cases h
      · obtain rfl := Option.some.inj h
        positivity
  · cases h

/-- Helper: `_to_float` never returns a negative value. -/
theorem to_float_nonneg (s : String) (q : ℚ) (h : to_float s = some q) : 0 ≤ q := by
  simp only [to_float] at h
  split at h
  · split at h
    · split at h
      · split at h
        · cases h
        · obtain rfl := Option.some.inj h
          exact div_nonneg (pyFloat_nonneg _ _ (by assumption))
            (pyFloat_nonneg _ _ (by assumption))
      · cases h
    · cases h
  · exact pyFloat_nonneg _ _ h

/-- Non-negativity of the numeric fields of a table row (the claimed
precondition): grams-per-unit (when present) and the four densities. -/
def rowNonneg (row : FoodRow) : Prop :=
  0 ≤ row.grams_per_unit.getD 0 ∧ 0 ≤ row.kcal_per_100g ∧
  0 ≤ row.protein_g_per_100g ∧ 0 ≤ row.fat_g_per_100g ∧ 0 ≤ row.carb_g_per_100g

set_option maxRecDepth 4000 in
/-- Counterexample to claim C6 as stated: `parse_quantity` can raise
even on a row whose numeric fields are all non-negative.  For
"1/0 g sel" the quantity regex captures the fraction "1/0" and
`_to_float` divides by zero (`ZeroDivisionError`); for
"1 \u03A9g poulet" the num class of the committed (double-encoded)
regex captures the single character U+03A9, no `map_unicode` key
matches it, and `float` rejects it (`ValueError`).  Both appear as
`none` in the model. -/
theorem parse_quantity_raising_inputs :
    rowNonneg pouletRow ∧ parse_quantity "1/0 g sel" pouletRow = none ∧
    parse_quantity "1 \u03A9g poulet" pouletRow = none := by
  refine ⟨?_, ?_, ?_⟩
  · unfold rowNonneg
    with_unfolding_all decide
  · with_unfolding_all decide
  · with_unfolding_all decide

set_option maxHeartbeats 1000000 in
/-- Claim C6 (amended): for a row with non-negative numeric fields,
`parse_quantity` either returns a non-negative grams value, or the text
captured for the quantity fails float conversion — a fraction whose
denominator parses to zero (`ZeroDivisionError`) or a captured
character `float` cannot parse, such as the literal class characters of
the double-encoded regex (`ValueError`) — and then `parse_quantity`
raises instead of returning. -/
theorem parse_quantity_nonneg_or_zero_denominator :
    ∀ (line : String) (row : FoodRow), rowNonneg row →
      (∃ q, parse_quantity line row = some q ∧ 0 ≤ q) ∨
      (∃ n u, qtyScan line.toList = some (n, u) ∧
        to_float (String.mk n) = none) := by
  intro line row hrow
  obtain ⟨hg0, hk100, hp100, hf100, hc100⟩ := hrow
  cases hs : qtyScan line.toList with
  | none =>
    left
    unfold parse_quantity
    rw [hs]
    dsimp only
    by_cases hu : strEqB row.unit "unit" = true
    · refine ⟨row.grams_per_unit.getD 100, by rw [if_pos hu], ?_⟩
      cases hg : row.grams_per_unit with
      | none => norm_num
      | some g =>
        rw [hg] at hg0
        simpa using hg0
    · exact ⟨100, by rw [if_neg hu], by norm_num⟩
  | some p =>
    obtain ⟨n, u⟩ := p
    cases ht : to_float (String.mk n) with
    | none => exact Or.inr ⟨n, u, rfl, ht⟩
    | some val =>
      left
      have hval : 0 ≤ val := to_float_nonneg _ _ ht
      unfold parse_quantity
      rw [hs]
      dsimp only
      rw [ht]
      dsimp only
      split_ifs
      all_goals refine ⟨_, rfl, ?_⟩
      all_goals first
        | exact hval
        | exact mul_nonneg hval hg0
        | exact mul_nonneg hval (by norm_num)

/-- Witness for C6 (amended) at "200 g farine" and the chicken row. -/
theorem parse_quantity_nonneg_or_zero_denominator_witness :
    (∃ q, parse_quantity "200 g farine" pouletRow = some q ∧ 0 ≤ q) ∨
    (∃ n u, qtyScan (String.toList "200 g farine") = some (n, u) ∧
      to_float (String.mk n) = none) :=
  parse_quantity_nonneg_or_zero_denominator "200 g farine" pouletRow
    (by unfold rowNonneg; with_unfolding_all decide)
